import Mathlib

/-!
Verification of the cometbft peer-connection layer and state utilities.

Shallow embedding conventions:
- Go `time.Duration` is `Int` nanoseconds constrained to int64 semantics:
  addition, subtraction and multiplication wrap modulo 2^64 into
  [-2^63, 2^63) (`wrap64`), division truncates toward zero (`Int.tdiv`,
  wrapped), `Duration.Abs` maps the minimum int64 to the maximum.
- Go `time.Time` is `Int` nanoseconds counted from Go's zero time (so
  `IsZero` becomes `= 0`); `time.Time.Sub` saturates to the int64 range as
  Go documents, modelled by `satSub64`.
- Go booleans and byte slices are `Bool` and `List Nat`.
-/

namespace CometBFT

/-! ## State utilities (src/unnamed/part_000, package state) -/

/-- Go `state.State`, restricted to the field read by `CalculateDelay`. -/
structure StateS where
  genesisTime : Int
deriving DecidableEq, Repr

/-- Go `types.BlockParams`, restricted to the field read by `CalculateDelay`. -/
structure BlockParams where
  blockTime : Int
deriving DecidableEq, Repr

/-- Go `types.ConsensusParams`, restricted to the `Block` field. -/
structure ConsensusParams where
  block : BlockParams
deriving DecidableEq, Repr

/-- Go `types.Block`, restricted to the header fields read by `CalculateDelay`. -/
structure Block where
  height : Int
  time : Int
deriving DecidableEq, Repr

/-- Go `state.Store`, restricted to the two fallible loads used by
`CalculateDelay`; `none` models a non-nil Go error. -/
structure Store where
  load : Option StateS
  loadConsensusParams : Int → Option ConsensusParams

/-- The smallest int64 value, math.MinInt64. -/
def int64Min : Int := -9223372036854775808

/-- The largest int64 value, math.MaxInt64. -/
def int64Max : Int := 9223372036854775807

/-- Two's-complement reduction of an integer into the int64 range
[-2^63, 2^63): the value Go's wrapping int64 arithmetic produces. -/
def wrap64 (x : Int) : Int :=
  (x + 9223372036854775808) % 18446744073709551616 - 9223372036854775808

/-- Go int64 addition (wraps on overflow). -/
def add64 (a b : Int) : Int :=
  wrap64 (a + b)

/-- Go int64 subtraction (wraps on overflow). -/
def sub64 (a b : Int) : Int :=
  wrap64 (a - b)

/-- Go int64 multiplication (wraps on overflow). -/
def mul64 (a b : Int) : Int :=
  wrap64 (a * b)

/-- Go int64 division: truncation toward zero, wrapping in the single
overflow case minInt64 / -1. -/
def quo64 (a b : Int) : Int :=
  wrap64 (a.tdiv b)

/-- Go `time.Duration.Abs`: absolute value, with the documented special
case that the minimum int64 maps to the maximum. -/
def abs64 (d : Int) : Int :=
  if d = int64Min then int64Max else (d.natAbs : Int)

/-- Go `time.Time.Sub`: the difference, saturated to the int64 Duration
range as the Go documentation specifies. -/
def satSub64 (a b : Int) : Int :=
  if a - b > int64Max then int64Max
  else if a - b < int64Min then int64Min
  else a - b

/-- Go constant ` MsgProcDelayRatio = 10` from the named-constants revision. -/
def MsgProcDelayRatio : Int := 10

/-- Go constant ` DeflectionRatio = 5` from the named-constants revision. -/
def DeflectionRatio : Int := 5

/-- Go `state.CalculateDelay`, first revision (literal constants 10 and 5),
src/unnamed/part_000 lines 11-60, with int64 Duration arithmetic wrapping
via `wrap64` and `Time.Sub` saturating via `satSub64`. -/
def CalculateDelayLit (store : Store) (currentBlock : Block) : Int :=
  match store.load with
  | none => 0
  | some state =>
    match store.loadConsensusParams (sub64 currentBlock.height 1) with
    | none => 0
    | some consensusParams =>
      let blockTime := consensusParams.block.blockTime
      let idealNextBlockDelay := sub64 blockTime (quo64 blockTime 10)
      let genesisTime := state.genesisTime
      if genesisTime = 0 then 0
      else
        let gotDuration := satSub64 currentBlock.time genesisTime
        let expected := mul64 blockTime (sub64 currentBlock.height 1)
        let diff := sub64 gotDuration expected
        let threshold := quo64 idealNextBlockDelay 5
        if abs64 diff > quo64 idealNextBlockDelay 5 then
          if diff > 0 then sub64 idealNextBlockDelay threshold
          else add64 idealNextBlockDelay threshold
        else sub64 idealNextBlockDelay diff

/-- Go `state.CalculateDelay`, second revision (named constants), i.e.
src/unnamed/part_000 lines 79-129, with int64 Duration arithmetic wrapping
via `wrap64` and `Time.Sub` saturating via `satSub64`. -/
def CalculateDelay (store : Store) (currentBlock : Block) : Int :=
  match store.load with
  | none => 0
  | some state =>
    match store.loadConsensusParams (sub64 currentBlock.height 1) with
    | none => 0
    | some consensusParams =>
      let blockTime := consensusParams.block.blockTime
      let msgProcDelay := quo64 blockTime MsgProcDelayRatio
      let idealNextBlockDelay := sub64 blockTime msgProcDelay
      let genesisTime := state.genesisTime
      if genesisTime = 0 then 0
      else
        let gotDuration := satSub64 currentBlock.time genesisTime
        let expected := mul64 blockTime (sub64 currentBlock.height 1)
        let diff := sub64 gotDuration expected
        let threshold := quo64 idealNextBlockDelay DeflectionRatio
        if abs64 diff > threshold then
          if diff > 0 then sub64 idealNextBlockDelay threshold
          else add64 idealNextBlockDelay threshold
        else sub64 idealNextBlockDelay diff

/-- Ideal next-block delay as the spec words it:
blockTime minus blockTime divided by ` MsgProcDelayRatio`. -/
def idealNextBlockDelayOf (blockTime : Int) : Int :=
  blockTime - blockTime.tdiv MsgProcDelayRatio

/-- Deflection threshold as the spec words it: the ideal delay divided by
` DeflectionRatio`. -/
def deflectionThresholdOf (blockTime : Int) : Int :=
  (idealNextBlockDelayOf blockTime).tdiv DeflectionRatio

/-! ## P2P peer (src/p2p/peer.go)

The gogoproto layer (`proto.Marshal`, `proto.Unmarshal` into a cloned
prototype, the `types.Wrapper` / `types.Unwrapper` interfaces and the
`getMsgType` label) lives outside src/; it is abstracted as a `ProtoRules`
bundle over an arbitrary message type, and the theorems quantify over it. -/

/-- Abstraction of the protobuf layer used by peer.go: `marshal` is
`proto.Marshal` (`none` = error), `unmarshal mt bs` is `proto.Unmarshal`
into a clone of prototype `mt`, `isWrapper` / `wrap` model the
`types.Wrapper` type assertion and `Wrap()`, `isUnwrapper` / `unwrap` model
`types.Unwrapper` and a fallible `Unwrap()`, and `msgType` is `getMsgType`. -/
structure ProtoRules (Msg : Type) where
  marshal : Msg → Option (List Nat)
  unmarshal : Msg → List Nat → Option Msg
  isWrapper : Msg → Bool
  wrap : Msg → Msg
  isUnwrapper : Msg → Bool
  unwrap : Msg → Option Msg
  msgType : Msg → String

/-- Lifecycle state of a peer. Modelled from the spec: `service.BaseService`
is not in src/; the spec gives {Created, Starting, Running, Stopping,
Stopped}, collapsed here to the three states the claims distinguish. -/
inductive ServiceState where
  | created
  | running
  | stopped
deriving DecidableEq, Repr

/-- Entry of the pending-metrics cache: per message-type label, bytes pending
send and pending receive since the last flush (fields read and reset by
`metricsReporter` in peer.go lines 448-461). -/
structure PendingEntry where
  label : String
  pendingSendBytes : Nat
  pendingRecvBytes : Nat
deriving DecidableEq, Repr

/-- The `perMessageCache` of `peerPendingMetricsCache`, as an association
list keyed by message-type label. -/
abbrev PendingCache := List PendingEntry

/-- Modelled from the spec: `AddPendingSendBytes` of the Pending-Metrics
Cache (its body is outside src/) accumulates `n` bytes pending send against
the message-type label, creating the entry when absent. -/
def addPendingSendBytes (c : PendingCache) (label : String) (n : Nat) : PendingCache :=
  match c with
  | [] => [⟨label, n, 0⟩]
  | e :: rest =>
    if e.label = label then { e with pendingSendBytes := e.pendingSendBytes + n } :: rest
    else e :: addPendingSendBytes rest label n

/-- Modelled from the spec: `AddPendingRecvBytes` of the Pending-Metrics
Cache (its body is outside src/) accumulates `n` bytes pending receive
against the message-type label, creating the entry when absent. -/
def addPendingRecvBytes (c : PendingCache) (label : String) (n : Nat) : PendingCache :=
  match c with
  | [] => [⟨label, 0, n⟩]
  | e :: rest =>
    if e.label = label then { e with pendingRecvBytes := e.pendingRecvBytes + n } :: rest
    else e :: addPendingRecvBytes rest label n

/-- The cumulative external counters written by the metrics reporter:
`MessageSendBytesTotal` and `MessageReceiveBytesTotal`, as total byte counts
per message-type label. -/
structure MetricsTotals where
  messageSendBytesTotal : String → Nat
  messageReceiveBytesTotal : String → Nat

/-- The transport connection surface used by the send path: `write d sid bs`
models `SetWriteDeadline(now + d ms)` followed by `Write(sid, bs)`; `none`
is a write error, `some n` means `n` bytes were written. -/
structure Conn where
  write : Nat → Nat → List Nat → Option Nat

/-- Go `peerConn` (peer.go lines 79-88), restricted to the fields the claims
read; the socket address is abstracted to a number. -/
structure PeerConn where
  outbound : Bool
  persistent : Bool
  conn : Conn
  socketAddr : Nat

/-- Go `newPeerConn` (peer.go lines 90-101). -/
def newPeerConn (outbound persistent : Bool) (conn : Conn) (socketAddr : Nat) : PeerConn :=
  { outbound := outbound, persistent := persistent, conn := conn, socketAddr := socketAddr }

/-- The slice of `ni.NodeInfo` the claims read: the reported channel
(capability) set, the self-reported net address (`NetAddr()`, `none` when it
fails) and the node ID; addresses and IDs are abstracted to numbers. -/
structure NodeInfo where
  channels : List Nat
  netAddr : Option Nat
  nid : Nat

/-- Go `p2p.peer` (peer.go lines 134-153), restricted to the state the
claims read. `readLoopLaunched` / `metricsReporterLaunched` record whether
`go p.readLoop(...)` / `go p.metricsReporter()` have been issued; `pid`
stands for the peer reference used as `Envelope.Src`. -/
structure Peer where
  state : ServiceState
  channels : List Nat
  pendingMetrics : PendingCache
  conn : Conn
  outbound : Bool
  persistent : Bool
  readLoopLaunched : Bool
  metricsReporterLaunched : Bool
  pid : Nat

/-- Go `Envelope`: stream ID, sender peer (abstracted to its `pid`), decoded
message. -/
structure Envelope (Msg : Type) where
  channelID : Nat
  src : Nat
  message : Msg
deriving DecidableEq, Repr

/-- Modelled from the spec: `service.BaseService.IsRunning` (outside src/)
is true exactly in the Running lifecycle state. -/
def isRunning (p : Peer) : Bool :=
  p.state = ServiceState.running

/-- The `for _, ch := range p.channels` loop of `HasChannel`. -/
def hasChannelList : List Nat → Nat → Bool
  | [], _ => false
  | ch :: rest, chID => if ch = chID then true else hasChannelList rest chID

/-- Go `HasChannel` (peer.go lines 378-385): linear scan of the cached
channel list. -/
def hasChannel (p : Peer) (chID : Nat) : Bool :=
  hasChannelList p.channels chID

/-- Go `newPeer` (peer.go lines 157-183): caches the channel list from the
node info, starts with an empty pending-metrics cache, and — before `Start`
is ever called — already issues `go p.readLoop(...)`. The dispatch tables
are passed to the read loop and otherwise unused; the metrics-injection
`PeerOption` only swaps the external metrics sink handle and is not
modelled. -/
def newPeer {Msg : Type} (pc : PeerConn) (nodeInfo : NodeInfo)
    (dispatch : List (Nat × Msg)) : Peer :=
  let _ := dispatch
  { state := ServiceState.created
    channels := nodeInfo.channels
    pendingMetrics := []
    conn := pc.conn
    outbound := pc.outbound
    persistent := pc.persistent
    readLoopLaunched := true
    metricsReporterLaunched := false
    pid := nodeInfo.nid }

/-- Modelled from the spec: `service.BaseService.Start` (outside src/)
transitions Created to Running and calls `OnStart`, which per peer.go lines
249-260 issues `go p.metricsReporter()`; starting from any other state is
an error (`none`). -/
def startPeer (p : Peer) : Option Peer :=
  match p.state with
  | ServiceState.created =>
    some { p with state := ServiceState.running, metricsReporterLaunched := true }
  | _ => none

/-- Modelled from the spec: `service.BaseService.Stop` together with
`OnStop` (peer.go lines 271-276) moves the peer to Stopped and closes the
connection. -/
def stopPeer (p : Peer) : Peer :=
  { p with state := ServiceState.stopped }

/-- Go `send` (peer.go lines 332-361): guard on running and channel
membership, compute the metrics label before wrapping, wrap if the message
is a `types.Wrapper`, marshal, write, require a full write, then account the
written bytes in the pending-metrics cache. -/
def send {Msg : Type} (R : ProtoRules Msg) (p : Peer) (streamID : Nat) (msg : Msg)
    (sendFunc : Nat → List Nat → Option Nat) : Bool × Peer :=
  if !(isRunning p) then (false, p)
  else if !(hasChannel p streamID) then (false, p)
  else
    let msgType := R.msgType msg
    let msg := if R.isWrapper msg then R.wrap msg else msg
    match R.marshal msg with
    | none => (false, p)
    | some msgBytes =>
      match sendFunc streamID msgBytes with
      | none => (false, p)
      | some n =>
        if n ≠ msgBytes.length then (false, p)
        else (true, { p with pendingMetrics := addPendingSendBytes p.pendingMetrics msgType n })

/-- The 10-second deadline `Send` sets (peer.go line 319), in milliseconds. -/
def sendDeadlineMs : Nat := 10000

/-- The 100-millisecond deadline `TrySend` sets (peer.go line 328). -/
def trySendDeadlineMs : Nat := 100

/-- Go `Send` (peer.go lines 318-321): set the 10s write deadline and call
`send` with the connection's write. -/
def Send {Msg : Type} (R : ProtoRules Msg) (p : Peer) (e : Envelope Msg) : Bool × Peer :=
  send R p e.channelID e.message (p.conn.write sendDeadlineMs)

/-- Go `TrySend` (peer.go lines 327-330): set the 100ms write deadline and
call `send` with the connection's write. -/
def TrySend {Msg : Type} (R : ProtoRules Msg) (p : Peer) (e : Envelope Msg) : Bool × Peer :=
  send R p e.channelID e.message (p.conn.write trySendDeadlineMs)

/-- The form of a message after the send path's wrapper step: wrapped when
its type is a `types.Wrapper`, unchanged otherwise. -/
def wireMsg {Msg : Type} (R : ProtoRules Msg) (msg : Msg) : Msg :=
  if R.isWrapper msg then R.wrap msg else msg

/-- The bytes `send` puts on the wire for a message: marshal of the wrapped
form. -/
def wireBytes {Msg : Type} (R : ProtoRules Msg) (msg : Msg) : Option (List Nat) :=
  R.marshal (if R.isWrapper msg then R.wrap msg else msg)

/-- The read loop's wrapper step: unwrap when the decoded message is a
`types.Unwrapper` (where `none` is an `Unwrap()` error), else keep it. -/
def unwrapStep {Msg : Type} (R : ProtoRules Msg) (msg : Msg) : Option Msg :=
  if R.isUnwrapper msg then R.unwrap msg else some msg

/-- Outcome of one iteration of the read loop body for one stream (peer.go
lines 192-225). `processFatal` models a Go `panic(...)` that takes the whole
process down, as opposed to `stopPeer` which only stops this peer. On
`deliver`, the envelope goes to the reactor registered for the stream and
`n` bytes are accounted against `recvLabel` in the pending-metrics cache. -/
inductive ReadAction (Msg : Type) where
  | stopPeer
  | skip
  | processFatal
  | deliver (recvLabel : String) (n : Nat) (env : Envelope Msg)
deriving DecidableEq, Repr

/-- Go `readLoop` body for one registered stream (peer.go lines 192-225).
`readResult` models `p.peerConn.Read(streamID, buf)`: `none` is a read
error, `some buf` a read of `len buf` bytes. On error: log, stop the peer,
exit. On zero bytes: continue with the next stream. Otherwise unmarshal
into the stream's prototype `mt` (panicking on failure), unwrap a
`types.Unwrapper` (panicking on failure), account the received bytes and
deliver the envelope to the stream's reactor. -/
def readStep {Msg : Type} (R : ProtoRules Msg) (p : Peer) (streamID : Nat) (mt : Msg)
    (readResult : Option (List Nat)) : ReadAction Msg :=
  match readResult with
  | none => ReadAction.stopPeer
  | some buf =>
    if buf.length = 0 then ReadAction.skip
    else
      match R.unmarshal mt buf with
      | none => ReadAction.processFatal
      | some msg =>
        match (if R.isUnwrapper msg then R.unwrap msg else some msg) with
        | none => ReadAction.processFatal
        | some msg =>
          ReadAction.deliver (R.msgType msg) buf.length
            { channelID := streamID, src := p.pid, message := msg }

/-- Effect of a non-fatal read action on the peer: a `stopPeer` action stops
the peer (`p.Stop()` in peer.go line 198), `skip` leaves it unchanged, and
`deliver` accounts the received bytes in the pending-metrics cache. -/
def applyReadAction {Msg : Type} (p : Peer) : ReadAction Msg → Peer
  | ReadAction.stopPeer => stopPeer p
  | ReadAction.skip => p
  | ReadAction.processFatal => p
  | ReadAction.deliver label n _ =>
    { p with pendingMetrics := addPendingRecvBytes p.pendingMetrics label n }

/-- Go `metricsReporter` tick, part (c) (peer.go lines 445-462): under one
critical section, for every cache entry with nonzero pending send bytes add
them to `MessageSendBytesTotal` for the entry's label and reset the entry,
and likewise for pending receive bytes. -/
def drainCache : PendingCache → MetricsTotals → PendingCache × MetricsTotals
  | [], m => ([], m)
  | e :: rest, m =>
    let m1 :=
      if e.pendingSendBytes > 0 then
        { m with messageSendBytesTotal := fun l =>
            if l = e.label then m.messageSendBytesTotal l + e.pendingSendBytes
            else m.messageSendBytesTotal l }
      else m
    let e1 := if e.pendingSendBytes > 0 then { e with pendingSendBytes := 0 } else e
    let m2 :=
      if e1.pendingRecvBytes > 0 then
        { m1 with messageReceiveBytesTotal := fun l =>
            if l = e1.label then m1.messageReceiveBytesTotal l + e1.pendingRecvBytes
            else m1.messageReceiveBytesTotal l }
      else m1
    let e2 := if e1.pendingRecvBytes > 0 then { e1 with pendingRecvBytes := 0 } else e1
    let res := drainCache rest m2
    (e2 :: res.1, res.2)

/-- Total bytes pending send in the cache for one label. -/
def pendingSendSum : PendingCache → String → Nat
  | [], _ => 0
  | e :: rest, l =>
    (if e.label = l then e.pendingSendBytes else 0) + pendingSendSum rest l

/-- Total bytes pending receive in the cache for one label. -/
def pendingRecvSum : PendingCache → String → Nat
  | [], _ => 0
  | e :: rest, l =>
    (if e.label = l then e.pendingRecvBytes else 0) + pendingRecvSum rest l

/-- Go `peerConfig` (peer.go lines 33-44), restricted to the fields
`wrapPeer` reads; the dispatch tables are merged into one prototype table. -/
structure PeerConfig (Msg : Type) where
  outbound : Bool
  isPersistent : Option (Nat → Bool)
  dispatch : List (Nat × Msg)

/-- Go `wrapPeer` (peer.go lines 509-540): decide persistence (outbound:
predicate on the dialed socket address; inbound: predicate on the
self-reported address when `NetAddr()` succeeds, else non-persistent), then
build the peer connection and the peer. -/
def wrapPeer {Msg : Type} (c : Conn) (nodeInfo : NodeInfo) (cfg : PeerConfig Msg)
    (socketAddr : Nat) : Peer :=
  let persistent :=
    match cfg.isPersistent with
    | none => false
    | some pred =>
      if cfg.outbound then pred socketAddr
      else
        match nodeInfo.netAddr with
        | some selfReportedAddr => pred selfReportedAddr
        | none => false
  newPeer (newPeerConn cfg.outbound persistent c socketAddr) nodeInfo cfg.dispatch

/-- Go `IsPersistent` (peer.go lines 292-294). -/
def IsPersistent (p : Peer) : Bool :=
  p.persistent

/-! ## Concrete fixtures used to instantiate the universally quantified
theorems below. -/

/-- A connection whose write always succeeds completely. -/
def exConn : Conn :=
  { write := fun _ _ bs => some bs.length }

/-- A protobuf world over `Nat` messages: message `m` encodes to the single
byte `[m]`, decoding accepts exactly one byte, and no type is a wrapper. -/
def exRules : ProtoRules Nat :=
  { marshal := fun m => some [m]
    unmarshal := fun _ bs => match bs with | [x] => some x | _ => none
    isWrapper := fun _ => false
    wrap := fun m => m
    isUnwrapper := fun _ => false
    unwrap := fun _ => none
    msgType := fun _ => "ex" }

/-- A protobuf world over `Nat` messages in which every message encodes to
the empty byte string (as a protobuf message with only default fields does)
and the empty byte string decodes successfully to message `0`. -/
def exRulesEmpty : ProtoRules Nat :=
  { marshal := fun _ => some []
    unmarshal := fun _ bs => match bs with | [] => some 0 | _ => none
    isWrapper := fun _ => false
    wrap := fun m => m
    isUnwrapper := fun _ => false
    unwrap := fun _ => none
    msgType := fun _ => "ex" }

/-- A running peer with capability set {0x20}. -/
def exPeerRunning : Peer :=
  { state := ServiceState.running
    channels := [32]
    pendingMetrics := []
    conn := exConn
    outbound := false
    persistent := false
    readLoopLaunched := true
    metricsReporterLaunched := true
    pid := 7 }

/-- The same peer in the Stopped state. -/
def exPeerStopped : Peer :=
  { exPeerRunning with state := ServiceState.stopped }

/-- A peer connection fixture. -/
def exPeerConn : PeerConn :=
  newPeerConn false false exConn 0

/-- A node info fixture reporting capability set {0x20}. -/
def exNodeInfo : NodeInfo :=
  { channels := [32], netAddr := some 3, nid := 7 }

/-- A store whose consensus parameters carry a negative block time. -/
def cexStore : Store :=
  { load := some { genesisTime := 1 }
    loadConsensusParams := fun _ => some { block := { blockTime := -10 } } }

/-- The current block used with `cexStore`. -/
def cexBlock : Block :=
  { height := 1, time := 1 }

/-- A store with genesis time 5 and block time 10 ns. -/
def wStore : Store :=
  { load := some { genesisTime := 5 }
    loadConsensusParams := fun _ => some { block := { blockTime := 10 } } }

/-- The current block used with `wStore`: height 2, 15 ns after genesis
(5 ns later than the expected 10 ns, beyond the threshold of 1 ns). -/
def wBlock : Block :=
  { height := 2, time := 20 }

/-! ## Theorems -/

/-- C9: the two `CalculateDelay` revisions — literal constants 10 and 5
versus the named constants ` MsgProcDelayRatio` and ` DeflectionRatio` —
compute the same function of the store and the current block. -/
theorem claim_C9_calculate_delay_equiv : CalculateDelayLit = CalculateDelay :=
  rfl

/-- Reduction into the int64 range is the identity on values already in
range. -/
theorem wrap64_eq_self {x : Int} (h1 : int64Min ≤ x) (h2 : x ≤ int64Max) :
    wrap64 x = x := by
  unfold wrap64
  simp only [int64Min] at h1
  simp only [int64Max] at h2
  omega

/-- A wrapped int64 operation always produces a value in the int64 range. -/
theorem wrap64_bounds (x : Int) : int64Min ≤ wrap64 x ∧ wrap64 x ≤ int64Max := by
  unfold wrap64 int64Min int64Max
  omega

/-- C10 (amended: the loaded block time must be nonnegative and
representable, and the adjusted delay ideal + threshold must not exceed
the int64 maximum, since Go's Duration arithmetic wraps on overflow): when
both loads succeed, the genesis time is nonzero, 0 ≤ blockTime ≤ maxInt64
and ideal + threshold ≤ maxInt64, `CalculateDelay` lands in the closed
interval [ideal − threshold, ideal + threshold]; when a load fails or the
genesis time is zero, it returns exactly 0. -/
theorem claim_C10_delay_bounds (store : Store) (b : Block) :
    (∀ st cp, store.load = some st →
      store.loadConsensusParams (sub64 b.height 1) = some cp →
      st.genesisTime ≠ 0 →
      0 ≤ cp.block.blockTime →
      cp.block.blockTime ≤ int64Max →
      idealNextBlockDelayOf cp.block.blockTime + deflectionThresholdOf cp.block.blockTime
          ≤ int64Max →
      idealNextBlockDelayOf cp.block.blockTime - deflectionThresholdOf cp.block.blockTime
          ≤ CalculateDelay store b
        ∧ CalculateDelay store b
          ≤ idealNextBlockDelayOf cp.block.blockTime + deflectionThresholdOf cp.block.blockTime)
    ∧ (store.load = none → CalculateDelay store b = 0)
    ∧ (∀ st, store.load = some st →
        store.loadConsensusParams (sub64 b.height 1) = none → CalculateDelay store b = 0)
    ∧ (∀ st, store.load = some st → st.genesisTime = 0 → CalculateDelay store b = 0) := by
  refine ⟨?_, ?_, ?_, ?_⟩
  · intro st cp hld hcp hg hbt0 hbtM hsum
    have hIdef : idealNextBlockDelayOf cp.block.blockTime
        = cp.block.blockTime - cp.block.blockTime.tdiv 10 := rfl
    have hTdef : deflectionThresholdOf cp.block.blockTime
        = (cp.block.blockTime - cp.block.blockTime.tdiv 10).tdiv 5 := rfl
    have hq10a : 0 ≤ cp.block.blockTime.tdiv 10 :=
      Int.tdiv_nonneg hbt0 (by norm_num)
    have hq10b : cp.block.blockTime.tdiv 10 ≤ cp.block.blockTime := by
      rw [Int.tdiv_eq_ediv hbt0 (by norm_num)]
      exact Int.ediv_le_self _ hbt0
    have hI0 : 0 ≤ cp.block.blockTime - cp.block.blockTime.tdiv 10 := by
      omega
    have ht5a : 0 ≤ (cp.block.blockTime - cp.block.blockTime.tdiv 10).tdiv 5 :=
      Int.tdiv_nonneg hI0 (by norm_num)
    have ht5b : (cp.block.blockTime - cp.block.blockTime.tdiv 10).tdiv 5
        ≤ cp.block.blockTime - cp.block.blockTime.tdiv 10 := by
      rw [Int.tdiv_eq_ediv hI0 (by norm_num)]
      exact Int.ediv_le_self _ hI0
    rw [hIdef, hTdef] at hsum ⊢
    simp only [int64Max] at hbtM hsum
    have hquo : quo64 cp.block.blockTime MsgProcDelayRatio
        = cp.block.blockTime.tdiv 10 := by
      show wrap64 (cp.block.blockTime.tdiv 10) = cp.block.blockTime.tdiv 10
      exact wrap64_eq_self (by simp only [int64Min]; omega)
        (by simp only [int64Max]; omega)
    have hideal : sub64 cp.block.blockTime (cp.block.blockTime.tdiv 10)
        = cp.block.blockTime - cp.block.blockTime.tdiv 10 := by
      show wrap64 (cp.block.blockTime - cp.block.blockTime.tdiv 10)
          = cp.block.blockTime - cp.block.blockTime.tdiv 10
      exact wrap64_eq_self (by simp only [int64Min]; omega)
        (by simp only [int64Max]; omega)
    have hthr : quo64 (cp.block.blockTime - cp.block.blockTime.tdiv 10) DeflectionRatio
        = (cp.block.blockTime - cp.block.blockTime.tdiv 10).tdiv 5 := by
      show wrap64 ((cp.block.blockTime - cp.block.blockTime.tdiv 10).tdiv 5)
          = (cp.block.blockTime - cp.block.blockTime.tdiv 10).tdiv 5
      exact wrap64_eq_self (by simp only [int64Min]; omega)
        (by simp only [int64Max]; omega)
    simp only [CalculateDelay, hld, hcp]
    rw [if_neg hg, hquo, hideal, hthr]
    have hdiffb := wrap64_bounds (satSub64 b.time st.genesisTime
        - mul64 cp.block.blockTime (sub64 b.height 1))
    simp only [int64Min, int64Max] at hdiffb
    set diffE := sub64 (satSub64 b.time st.genesisTime)
        (mul64 cp.block.blockTime (sub64 b.height 1)) with hdiffE
    have hdb : -9223372036854775808 ≤ diffE ∧ diffE ≤ 9223372036854775807 := hdiffb
    have habs_eq : abs64 diffE
        = if diffE = -9223372036854775808 then (9223372036854775807 : Int)
          else (diffE.natAbs : Int) := by
      simp [abs64, int64Min, int64Max]
    by_cases habs :
        abs64 diffE > (cp.block.blockTime - cp.block.blockTime.tdiv 10).tdiv 5
    · rw [if_pos habs]
      by_cases hdpos : diffE > 0
      · rw [if_pos hdpos]
        have hcap : sub64 (cp.block.blockTime - cp.block.blockTime.tdiv 10)
            ((cp.block.blockTime - cp.block.blockTime.tdiv 10).tdiv 5)
            = (cp.block.blockTime - cp.block.blockTime.tdiv 10)
              - (cp.block.blockTime - cp.block.blockTime.tdiv 10).tdiv 5 :=
          wrap64_eq_self (by simp only [int64Min]; omega)
            (by simp only [int64Max]; omega)
        rw [hcap]
        omega
      · rw [if_neg hdpos]
        have hcap : add64 (cp.block.blockTime - cp.block.blockTime.tdiv 10)
            ((cp.block.blockTime - cp.block.blockTime.tdiv 10).tdiv 5)
            = (cp.block.blockTime - cp.block.blockTime.tdiv 10)
              + (cp.block.blockTime - cp.block.blockTime.tdiv 10).tdiv 5 :=
          wrap64_eq_self (by simp only [int64Min]; omega)
            (by simp only [int64Max]; omega)
        rw [hcap]
        omega
    · rw [if_neg habs]
      push_neg at habs
      have hne : diffE ≠ -9223372036854775808 := by
        intro hmin
        rw [habs_eq, if_pos hmin] at habs
        omega
      rw [habs_eq, if_neg hne] at habs
      have hsub : sub64 (cp.block.blockTime - cp.block.blockTime.tdiv 10) diffE
          = (cp.block.blockTime - cp.block.blockTime.tdiv 10) - diffE :=
        wrap64_eq_self (by simp only [int64Min]; omega)
          (by simp only [int64Max]; omega)
      rw [hsub]
      constructor <;> omega
  · intro h
    simp [CalculateDelay, h]
  · intro st h1 h2
    simp [CalculateDelay, h1, h2]
  · intro st h1 h2
    simp only [CalculateDelay, h1]
    cases store.loadConsensusParams (sub64 b.height 1) <;> simp [h2]

/-- C10 counterexample: with block time −10 ns both loads succeed and the
genesis time is nonzero, yet `CalculateDelay` returns −10, which lies
outside [ideal − threshold, ideal + threshold] = [−8, −10]; the claim as
stated fails for negative block times. -/
theorem claim_C10_cex :
    cexStore.load = some { genesisTime := 1 }
    ∧ cexStore.loadConsensusParams (sub64 cexBlock.height 1)
        = some { block := { blockTime := -10 } }
    ∧ CalculateDelay cexStore cexBlock = -10
    ∧ decide (idealNextBlockDelayOf (-10) - deflectionThresholdOf (-10)
          ≤ CalculateDelay cexStore cexBlock) = false := by
  decide

/-- C10 witness: the bounds theorem applied to the concrete store `wStore`
and block `wBlock`. -/
theorem claim_C10_witness :
    idealNextBlockDelayOf 10 - deflectionThresholdOf 10 ≤ CalculateDelay wStore wBlock
      ∧ CalculateDelay wStore wBlock
        ≤ idealNextBlockDelayOf 10 + deflectionThresholdOf 10 :=
  (claim_C10_delay_bounds wStore wBlock).1 { genesisTime := 5 }
    { block := { blockTime := 10 } } (by decide) (by decide) (by decide) (by decide)
    (by decide) (by decide)

/-- Case analysis of `send` shared by the send-contract and channel
theorems: result and side effect for an arbitrary write function. -/
theorem send_main {Msg : Type} (R : ProtoRules Msg) (p : Peer) (sid : Nat) (msg : Msg)
    (f : Nat → List Nat → Option Nat) :
    ((send R p sid msg f).1 = false → (send R p sid msg f).2 = p)
    ∧ ((send R p sid msg f).1 = true ↔
        isRunning p = true ∧ hasChannel p sid = true ∧
        ∃ bs, wireBytes R msg = some bs ∧ f sid bs = some bs.length)
    ∧ (∀ bs, wireBytes R msg = some bs → (send R p sid msg f).1 = true →
        (send R p sid msg f).2.pendingMetrics =
          addPendingSendBytes p.pendingMetrics (R.msgType msg) bs.length) := by
  simp only [send, wireBytes]
  cases hR : isRunning p <;> simp
  cases hC : hasChannel p sid <;> simp
  cases hM : R.marshal (if R.isWrapper msg then R.wrap msg else msg) <;> simp
  rename_i bs
  cases hF : f sid bs <;> simp
  rename_i n
  by_cases hN : n = bs.length <;> simp [hN]

/-- C1: `Send` and `TrySend` return false and leave the peer (in particular
its pending-metrics cache) unchanged when the peer is not Running, the
stream is not in its capability set, marshaling fails, the write errors, or
the write is short; they return true exactly when all steps succeed with a
full write, in which case the encoded byte count is accounted against the
message's type in the pending-metrics cache. A `Send` on a Stopped peer in
particular returns false with no metrics side effect. -/
theorem claim_C1_send_contract {Msg : Type} (R : ProtoRules Msg) (p : Peer)
    (e : Envelope Msg) :
    (p.state = ServiceState.stopped →
      Send R p e = (false, p) ∧ TrySend R p e = (false, p))
    ∧ ((Send R p e).1 = false → (Send R p e).2 = p)
    ∧ ((TrySend R p e).1 = false → (TrySend R p e).2 = p)
    ∧ ((Send R p e).1 = true ↔
        isRunning p = true ∧ hasChannel p e.channelID = true ∧
        ∃ bs, wireBytes R e.message = some bs ∧
          p.conn.write sendDeadlineMs e.channelID bs = some bs.length)
    ∧ ((TrySend R p e).1 = true ↔
        isRunning p = true ∧ hasChannel p e.channelID = true ∧
        ∃ bs, wireBytes R e.message = some bs ∧
          p.conn.write trySendDeadlineMs e.channelID bs = some bs.length)
    ∧ (∀ bs, wireBytes R e.message = some bs → (Send R p e).1 = true →
        (Send R p e).2.pendingMetrics =
          addPendingSendBytes p.pendingMetrics (R.msgType e.message) bs.length)
    ∧ (∀ bs, wireBytes R e.message = some bs → (TrySend R p e).1 = true →
        (TrySend R p e).2.pendingMetrics =
          addPendingSendBytes p.pendingMetrics (R.msgType e.message) bs.length) := by
  have hS := send_main R p e.channelID e.message (p.conn.write sendDeadlineMs)
  have hT := send_main R p e.channelID e.message (p.conn.write trySendDeadlineMs)
  simp only [Send, TrySend]
  refine ⟨?_, hS.1, hT.1, hS.2.1, hT.2.1, hS.2.2, hT.2.2⟩
  intro hstop
  have hnr : isRunning p = false := by
    simp [isRunning, hstop]
  constructor <;> simp [send, hnr]

/-- C1 witness: the contract applied to a concrete Stopped peer. -/
theorem claim_C1_witness :
    Send exRules exPeerStopped { channelID := 32, src := 0, message := 5 }
        = (false, exPeerStopped)
    ∧ TrySend exRules exPeerStopped { channelID := 32, src := 0, message := 5 }
        = (false, exPeerStopped) :=
  (claim_C1_send_contract exRules exPeerStopped
    { channelID := 32, src := 0, message := 5 }).1 rfl

/-- C2 counterexample: in a protobuf world where message 0 encodes to the
empty byte string — which decodes successfully against the stream's
prototype, so 0 is admissible as the claim states it — `Send` succeeds, yet
the receiving read-loop step on the written bytes is `skip` (the `n == 0`
branch), not a delivery: the handler is never invoked. -/
theorem claim_C2_cex :
    exRulesEmpty.marshal 0 = some []
    ∧ wireBytes exRulesEmpty 0 = some []
    ∧ exRulesEmpty.unmarshal 0 [] = some 0
    ∧ (Send exRulesEmpty exPeerRunning { channelID := 32, src := 7, message := 0 }).1 = true
    ∧ readStep exRulesEmpty exPeerRunning 32 0 (some []) = ReadAction.skip
    ∧ decide (ReadAction.skip = ReadAction.deliver (exRulesEmpty.msgType 0) 0
        { channelID := 32, src := exPeerRunning.pid, message := 0 }) = false := by
  refine ⟨rfl, rfl, rfl, rfl, rfl, by decide⟩

/-- C2 (amended: the encoding of the message must be nonempty, since the
read loop skips zero-byte reads): a message admissible on stream S — its
wrapped form marshals to nonempty bytes that decode back against S's
prototype, and unwraps back to the original — is accepted by `Send` on a
running sender with capability S and a fully successful write, and the
receiving peer's read-loop step on the written bytes is exactly one
delivery of an envelope with channel S, the receiving peer as source, and a
message structurally equal to the original. -/
theorem claim_C2_round_trip {Msg : Type} (R : ProtoRules Msg) (sender receiver : Peer)
    (S : Nat) (mt m : Msg) (bs : List Nat)
    (hwire : wireBytes R m = some bs)
    (hne : bs ≠ [])
    (hdec : R.unmarshal mt bs = some (wireMsg R m))
    (hunw : unwrapStep R (wireMsg R m) = some m)
    (hrun : isRunning sender = true)
    (hch : hasChannel sender S = true)
    (hwrite : sender.conn.write sendDeadlineMs S bs = some bs.length) :
    (Send R sender { channelID := S, src := sender.pid, message := m }).1 = true
    ∧ readStep R receiver S mt (some bs) =
        ReadAction.deliver (R.msgType m) bs.length
          { channelID := S, src := receiver.pid, message := m } := by
  constructor
  · exact (send_main R sender S m (sender.conn.write sendDeadlineMs)).2.1.mpr
      ⟨hrun, hch, bs, hwire, hwrite⟩
  · have hlen : ¬ bs.length = 0 := by
      simpa using hne
    have hu : (if R.isUnwrapper (wireMsg R m) then R.unwrap (wireMsg R m)
        else some (wireMsg R m)) = some m := hunw
    simp only [readStep, hdec, if_neg hlen, hu]

/-- C2 witness: the round trip at message 5 on stream 0x20 in the
single-byte-encoding world. -/
theorem claim_C2_witness :
    (Send exRules exPeerRunning { channelID := 32, src := 7, message := 5 }).1 = true
    ∧ readStep exRules exPeerRunning 32 0 (some [5]) =
        ReadAction.deliver (exRules.msgType 5) [5].length
          { channelID := 32, src := exPeerRunning.pid, message := 5 } :=
  claim_C2_round_trip exRules exPeerRunning exPeerRunning 32 0 5 [5]
    rfl (by decide) rfl rfl rfl rfl rfl

/-- After a drain, every cache entry has zero pending send and receive
bytes. -/
theorem drain_all_zero (c : PendingCache) : ∀ (m : MetricsTotals),
    ((drainCache c m).1.all fun e =>
      (e.pendingSendBytes == 0) && (e.pendingRecvBytes == 0)) = true := by
  induction c with
  | nil =>
    intro m
    simp [drainCache]
  | cons e rest ih =>
    intro m
    by_cases hps : e.pendingSendBytes > 0 <;> by_cases hpr : e.pendingRecvBytes > 0 <;>
      simp only [drainCache, hps, hpr, if_true, if_false, List.all_cons, ih,
        Bool.and_true, gt_iff_lt, if_pos, if_neg, ite_true, ite_false] <;>
      simp_all

/-- A drain adds exactly the pending send bytes of each label to the
cumulative send counter. -/
theorem drain_send_total (c : PendingCache) : ∀ (m : MetricsTotals) (l : String),
    (drainCache c m).2.messageSendBytesTotal l
      = m.messageSendBytesTotal l + pendingSendSum c l := by
  induction c with
  | nil =>
    intro m l
    simp [drainCache, pendingSendSum]
  | cons e rest ih =>
    intro m l
    simp only [drainCache, pendingSendSum]
    rw [ih]
    rcases eq_or_ne l e.label with hl | hl
    · subst hl
      by_cases hps : e.pendingSendBytes > 0 <;> by_cases hpr : e.pendingRecvBytes > 0 <;>
        simp [hps, hpr] <;> omega
    · by_cases hps : e.pendingSendBytes > 0 <;> by_cases hpr : e.pendingRecvBytes > 0 <;>
        simp [hps, hpr, hl, hl.symm] <;> omega

/-- A drain adds exactly the pending receive bytes of each label to the
cumulative receive counter. -/
theorem drain_recv_total (c : PendingCache) : ∀ (m : MetricsTotals) (l : String),
    (drainCache c m).2.messageReceiveBytesTotal l
      = m.messageReceiveBytesTotal l + pendingRecvSum c l := by
  induction c with
  | nil =>
    intro m l
    simp [drainCache, pendingRecvSum]
  | cons e rest ih =>
    intro m l
    simp only [drainCache, pendingRecvSum]
    rw [ih]
    rcases eq_or_ne l e.label with hl | hl
    · subst hl
      by_cases hps : e.pendingSendBytes > 0 <;> by_cases hpr : e.pendingRecvBytes > 0 <;>
        simp [hps, hpr] <;> omega
    · by_cases hps : e.pendingSendBytes > 0 <;> by_cases hpr : e.pendingRecvBytes > 0 <;>
        simp [hps, hpr, hl, hl.symm] <;> omega

/-- Draining a cache whose entries are all zero changes nothing. -/
theorem drainCache_of_zero (c : PendingCache)
    (hz : (c.all fun e =>
      (e.pendingSendBytes == 0) && (e.pendingRecvBytes == 0)) = true) :
    ∀ (m : MetricsTotals), drainCache c m = (c, m) := by
  induction c with
  | nil =>
    intro m
    simp [drainCache]
  | cons e rest ih =>
    intro m
    simp only [List.all_cons, Bool.and_eq_true, beq_iff_eq] at hz
    obtain ⟨⟨h1, h2⟩, h3⟩ := hz
    have ih' := ih (by simpa using h3)
    simp [drainCache, h1, h2, ih']

/-- C3: a drain of the pending-metrics cache zeroes every entry, adds to
each cumulative counter exactly the bytes that were pending for its label
(no double count, no loss), and a second drain performed immediately
afterwards is the identity: it finds all entries zero and adds nothing. -/
theorem claim_C3_metrics_drain (c : PendingCache) (m : MetricsTotals) :
    ((drainCache c m).1.all fun e =>
        (e.pendingSendBytes == 0) && (e.pendingRecvBytes == 0)) = true
    ∧ (∀ l, (drainCache c m).2.messageSendBytesTotal l
        = m.messageSendBytesTotal l + pendingSendSum c l)
    ∧ (∀ l, (drainCache c m).2.messageReceiveBytesTotal l
        = m.messageReceiveBytesTotal l + pendingRecvSum c l)
    ∧ drainCache (drainCache c m).1 (drainCache c m).2 = drainCache c m := by
  refine ⟨drain_all_zero c m, fun l => drain_send_total c m l,
    fun l => drain_recv_total c m l, ?_⟩
  rw [drainCache_of_zero (drainCache c m).1 (drain_all_zero c m) (drainCache c m).2]

/-- C4 counterexample: a freshly constructed peer already has its read loop
launched — `newPeer` issues `go p.readLoop(...)` (peer.go line 175) before
`Start` is ever called, so construction does not produce a peer that is
"not yet reading". -/
theorem claim_C4_cex :
    (newPeer exPeerConn exNodeInfo ([] : List (Nat × Nat))).readLoopLaunched = true :=
  rfl

/-- C4 (amended: the read loop is launched at construction, not by Start):
construction produces a peer in state Created with the read loop already
launched and the metrics reporter not yet launched; `Start` transitions
Created to Running and launches the metrics reporter. -/
theorem claim_C4_start_lifecycle {Msg : Type} (pc : PeerConn) (nodeInfo : NodeInfo)
    (dispatch : List (Nat × Msg)) (p : Peer) :
    (newPeer pc nodeInfo dispatch).state = ServiceState.created
    ∧ (newPeer pc nodeInfo dispatch).readLoopLaunched = true
    ∧ (newPeer pc nodeInfo dispatch).metricsReporterLaunched = false
    ∧ (p.state = ServiceState.created →
        startPeer p = some { p with state := ServiceState.running,
                                    metricsReporterLaunched := true }) := by
  refine ⟨rfl, rfl, rfl, ?_⟩
  intro h
  simp [startPeer, h]

/-- C4 witness: starting the freshly constructed fixture peer yields the
Running state with the metrics reporter launched. -/
theorem claim_C4_witness :
    startPeer (newPeer exPeerConn exNodeInfo ([] : List (Nat × Nat)))
      = some { newPeer exPeerConn exNodeInfo ([] : List (Nat × Nat)) with
                state := ServiceState.running, metricsReporterLaunched := true } :=
  (claim_C4_start_lifecycle exPeerConn exNodeInfo ([] : List (Nat × Nat))
    (newPeer exPeerConn exNodeInfo ([] : List (Nat × Nat)))).2.2.2 rfl

/-- C5: a transport read error makes the read loop stop the peer — the
resulting action is `stopPeer`, whose effect is the Stopped state, not the
process-fatal action — and a zero-byte read makes it skip to the next
stream, leaving the peer unchanged. -/
theorem claim_C5_read_error_zero {Msg : Type} (R : ProtoRules Msg) (p : Peer)
    (streamID : Nat) (mt : Msg) :
    readStep R p streamID mt none = ReadAction.stopPeer
    ∧ (applyReadAction p (ReadAction.stopPeer : ReadAction Msg)).state
        = ServiceState.stopped
    ∧ readStep R p streamID mt (some []) = ReadAction.skip
    ∧ applyReadAction p (ReadAction.skip : ReadAction Msg) = p :=
  ⟨rfl, rfl, rfl, rfl⟩

/-- C6: for a read of n > 0 bytes, an unmarshal failure against the stream's
prototype — or a successful unmarshal into a `types.Unwrapper` whose
`Unwrap` fails — makes the read loop raise a process-level panic
(`processFatal`), not a mere peer stop. -/
theorem claim_C6_decode_unwrap_fatal {Msg : Type} (R : ProtoRules Msg) (p : Peer)
    (streamID : Nat) (mt : Msg) (buf : List Nat) (hne : buf ≠ []) :
    (R.unmarshal mt buf = none →
      readStep R p streamID mt (some buf) = ReadAction.processFatal)
    ∧ (∀ msg, R.unmarshal mt buf = some msg → R.isUnwrapper msg = true →
        R.unwrap msg = none →
        readStep R p streamID mt (some buf) = ReadAction.processFatal) := by
  have hlen : ¬ buf.length = 0 := by
    simpa using hne
  constructor
  · intro h
    simp [readStep, hne, if_neg hlen, h]
  · intro msg h1 h2 h3
    simp [readStep, hne, if_neg hlen, h1, h2, h3]

/-- C6 witness: in the single-byte world the two-byte read [1, 2] does not
unmarshal, and the read step is the process-fatal action. -/
theorem claim_C6_witness :
    readStep exRules exPeerRunning 32 0 (some [1, 2]) = ReadAction.processFatal :=
  (claim_C6_decode_unwrap_fatal exRules exPeerRunning 32 0 [1, 2] (by decide)).1 rfl

/-- Membership characterization of the `HasChannel` scan. -/
theorem hasChannelList_iff (l : List Nat) (chID : Nat) :
    hasChannelList l chID = true ↔ chID ∈ l := by
  induction l with
  | nil =>
    simp [hasChannelList]
  | cons ch rest ih =>
    rcases eq_or_ne ch chID with h | h
    · subst h
      simp [hasChannelList]
    · simp [hasChannelList, h, Ne.symm h, ih]

/-- `send` fails without reaching the transport when the stream is not a
capability of the peer. -/
theorem send_false_of_no_channel {Msg : Type} (R : ProtoRules Msg) (p : Peer)
    (chID : Nat) (msg : Msg) (f : Nat → List Nat → Option Nat)
    (h : hasChannel p chID = false) : send R p chID msg f = (false, p) := by
  cases hR : isRunning p <;> simp [send, hR, h]

/-- C7: `HasChannel` is true exactly for stream IDs in the channel list the
construction cached from the identity's reported capability set; for a
stream present in the dispatch table but outside the capability set,
`HasChannel` is false and `send` (hence `Send`/`TrySend`) returns false
with the peer unchanged and a result independent of the transport write
function — the write path is never invoked. -/
theorem claim_C7_has_channel {Msg : Type} (pc : PeerConn) (nodeInfo : NodeInfo)
    (dispatch : List (Nat × Msg)) (p : Peer) (chID : Nat) :
    (hasChannel p chID = true ↔ chID ∈ p.channels)
    ∧ (newPeer pc nodeInfo dispatch).channels = nodeInfo.channels
    ∧ (chID ∈ dispatch.map Prod.fst → chID ∉ p.channels →
        hasChannel p chID = false
        ∧ (∀ (R : ProtoRules Msg) (msg : Msg) (f : Nat → List Nat → Option Nat),
            send R p chID msg f = (false, p))
        ∧ (∀ (R : ProtoRules Msg) (msg : Msg) (f g : Nat → List Nat → Option Nat),
            send R p chID msg f = send R p chID msg g)) := by
  refine ⟨hasChannelList_iff p.channels chID, rfl, ?_⟩
  intro _ hnm
  have hfalse : hasChannel p chID = false := by
    have := hasChannelList_iff p.channels chID
    simp only [hasChannel]
    rcases hhc : hasChannelList p.channels chID with _ | _
    · rfl
    · exact absurd (this.mp hhc) hnm
  exact ⟨hfalse, fun R msg f => send_false_of_no_channel R p chID msg f hfalse,
    fun R msg f g => by
      rw [send_false_of_no_channel R p chID msg f hfalse,
        send_false_of_no_channel R p chID msg g hfalse]⟩

/-- C7 witness: stream 0x21 is in a dispatch table but not among the
fixture peer's capabilities, so `HasChannel` is false and a `send` fails
with the peer unchanged. -/
theorem claim_C7_witness :
    hasChannel exPeerRunning 33 = false
    ∧ (∀ (R : ProtoRules Nat) (msg : Nat) (f : Nat → List Nat → Option Nat),
        send R exPeerRunning 33 msg f = (false, exPeerRunning))
    ∧ (∀ (R : ProtoRules Nat) (msg : Nat) (f g : Nat → List Nat → Option Nat),
        send R exPeerRunning 33 msg f = send R exPeerRunning 33 msg g) :=
  (claim_C7_has_channel exPeerConn exNodeInfo [(33, 0)] exPeerRunning 33).2.2
    (by decide) (by decide)

/-- C8: the wiring function's persistence decision — predicate on the dialed
socket address for outbound peers, on the self-reported address for inbound
peers when retrievable, non-persistent when retrieval fails or no predicate
is configured — is exactly what the constructed peer's `IsPersistent`
returns. -/
theorem claim_C8_wrap_peer_persistence {Msg : Type} (c : Conn) (nodeInfo : NodeInfo)
    (cfg : PeerConfig Msg) (socketAddr : Nat) :
    IsPersistent (wrapPeer c nodeInfo cfg socketAddr)
      = match cfg.isPersistent with
        | none => false
        | some pred =>
          if cfg.outbound then pred socketAddr
          else
            match nodeInfo.netAddr with
            | some a => pred a
            | none => false :=
  rfl

end CometBFT
